import Mathlib

/-!
Verification of the RBAC / auth core of the client-pages repository.

Shallow embedding of:
  backend/auth/permissions_utils.py  (grant / revoke / check / highest-level)
  backend/auth/jwt_utils.py          (token issue / verify / session revoke)
  backend/auth/firestore_client.py   (session store operations)
  backend/auth/password_utils.py     (verify_password)

Conventions of the embedding:
* Timestamps are integers (seconds); `datetime.utcnow()` becomes an explicit
  `now : Int` parameter.
* A stored `expires_at` value is `Expiry.none` (SQL NULL / Python None),
  `Expiry.ts t` (a timestamp, or a string that `datetime.fromisoformat`
  parses to `t`), or `Expiry.malformed` (a string on which
  `datetime.fromisoformat` raises).  Exceptions are modelled with `Except`.
* External collaborators (the BigQuery/Firestore stores, bcrypt) appear as
  explicit inputs: a store is a list of rows, a fallible store read is an
  `Except` value, `bcrypt.checkpw`'s outcome is an `Except String Bool`
  argument, and `hashlib.sha256` is a `Token → String` argument.
* `uuid.uuid4()` results are passed in as explicit fresh-identifier
  arguments.
-/

namespace ClientPages

/-- `expires_at` field of a permission row: NULL, a parseable timestamp, or a
string that `datetime.fromisoformat` rejects (raising inside the check loop). -/
inductive Expiry where
  | none : Expiry
  | ts : Int → Expiry
  | malformed : Expiry
deriving DecidableEq, Repr

/-- One row of the `permission_groups` table (permissions_utils.py,
`permission_data` in `grant_permission`). -/
structure Perm where
  permission_id : String
  user_id : String
  company : Option String
  category : Option String
  permission_level : String
  granted_by : String
  granted_at : Int
  expires_at : Expiry
  is_active : Bool
  revoked_by : Option String
  revoked_at : Option Int
  notes : Option String
deriving DecidableEq, Repr

/-- `PERMISSION_LEVELS.get(s, 0)`: the dict is `view=1, edit=2, admin=3`, and
`.get` with default `0` maps every other string to `0`. -/
def levelValue (s : String) : Nat :=
  if s = "view" then 1
  else if s = "edit" then 2
  else if s = "admin" then 3
  else 0

/-- The three scope-matching branches of `check_permission` (lines 268-281):
(NULL,NULL) matches everything; (company,NULL) matches when the requested
company is NULL or equal; (company,category) matches when both requested
fields are NULL or equal; a (NULL,category) grant matches no branch. -/
def scopeMatches (p : Perm) (company category : Option String) : Bool :=
  match p.company, p.category with
  | none, none => true
  | some pc, none => decide (company = none ∨ company = some pc)
  | some pc, some pk =>
      decide ((company = none ∨ company = some pc) ∧ (category = none ∨ category = some pk))
  | none, some _ => false

/-- The `for perm in permissions` loop of `check_permission`: skip inactive
rows, skip rows expired strictly before `now` (raising on an unparseable
`expires_at` string), skip rows below the required level, return `True` on the
first scope match, `False` after exhausting the list. -/
def checkLoop (now : Int) (reqVal : Nat) (company category : Option String) :
    List Perm → Except String Bool
  | [] => .ok false
  | p :: rest =>
    if p.is_active = false then checkLoop now reqVal company category rest
    else
      match p.expires_at with
      | .malformed => .error "Invalid isoformat string"
      | .ts t =>
        if t < now then checkLoop now reqVal company category rest
        else if levelValue p.permission_level < reqVal then
          checkLoop now reqVal company category rest
        else if scopeMatches p company category then .ok true
        else checkLoop now reqVal company category rest
      | .none =>
        if levelValue p.permission_level < reqVal then
          checkLoop now reqVal company category rest
        else if scopeMatches p company category then .ok true
        else checkLoop now reqVal company category rest

/-- `check_permission(user_id, required_level, company, category)`.
`fetch` is the outcome of `get_user_permissions(user_id)`; that function
catches store failures and returns `[]`, and `check_permission`'s own
`try/except` converts any exception raised in the loop (an unparseable
`expires_at`) to `False`. -/
def check_permission (now : Int) (fetch : Except String (List Perm))
    (required_level : String) (company category : Option String) : Bool :=
  let permissions : List Perm := match fetch with
    | .ok l => l
    | .error _ => []
  if permissions.isEmpty then false
  else
    match checkLoop now (levelValue required_level) company category permissions with
    | .ok b => b
    | .error _ => false

/-- The WHERE clause built by `get_user_permissions`: always `user_id = @uid`;
when a filter argument is not None, `(company = @company OR company IS NULL)`,
`(category = @category OR category IS NULL)`, and exact
`permission_level = @permission_level`. -/
def permFilter (uid : String) (company category permission_level : Option String)
    (p : Perm) : Bool :=
  decide (p.user_id = uid) &&
  (match company with
   | none => true
   | some c => decide (p.company = some c ∨ p.company = none)) &&
  (match category with
   | none => true
   | some k => decide (p.category = some k ∨ p.category = none)) &&
  (match permission_level with
   | none => true
   | some l => decide (p.permission_level = l))

/-- `get_user_permissions(user_id, company, category, permission_level)` as a
query against the `permission_groups` table.  The `ORDER BY granted_at DESC`
clause only permutes the result; every property proved below is insensitive to
the order of this list, so rows are kept in table order. -/
def get_user_permissions (store : List Perm) (uid : String)
    (company category permission_level : Option String) : List Perm :=
  store.filter (permFilter uid company category permission_level)

/-- `grant_permission(user_id, permission_level, granted_by, company,
category, expires_at, notes)`.  Returns the updated table together with the
`(success, permission_id, error_message)` triple of the source.  `newId` is
the `uuid.uuid4()` value. -/
def grant_permission (now : Int) (store : List Perm)
    (user_id permission_level granted_by : String)
    (company category : Option String) (expires_at : Option Int)
    (notes : Option String) (newId : String) :
    List Perm × Bool × Option String × Option String :=
  if ¬(permission_level = "view" ∨ permission_level = "edit" ∨ permission_level = "admin") then
    (store, false, none, some ("Invalid permission level: " ++ permission_level))
  else if check_permission now (.ok (get_user_permissions store granted_by none none none))
      "admin" company category = false then
    (store, false, none, some "Granting user does not have admin permission for this scope")
  else
    let existing := get_user_permissions store user_id company category (some permission_level)
    if existing.isEmpty = false then
      (store, false, none, some "Permission already exists for this scope")
    else
      let newPerm : Perm :=
        { permission_id := newId
          user_id := user_id
          company := company
          category := category
          permission_level := permission_level
          granted_by := granted_by
          granted_at := now
          expires_at := match expires_at with
            | some t => .ts t
            | none => .none
          is_active := true
          revoked_by := none
          revoked_at := none
          notes := notes }
      (store ++ [newPerm], true, some newId, none)

/-- `revoke_permission(permission_id, revoked_by, notes)`.  The UPDATE's WHERE
clause is `permission_id = @permission_id` alone; `num_dml_affected_rows`
counts the matched rows, and `notes = COALESCE(@notes, notes)` keeps the old
notes when the argument is None.  Returns the updated table with the
`(success, error_message)` pair of the source. -/
def revoke_permission (now : Int) (store : List Perm)
    (permission_id revoked_by : String) (notes : Option String) :
    List Perm × Bool × Option String :=
  let affected := (store.filter (fun p => decide (p.permission_id = permission_id))).length
  let updated := store.map (fun p =>
    if p.permission_id = permission_id then
      { p with is_active := false
               revoked_by := some revoked_by
               revoked_at := some now
               notes := match notes with
                 | some n => some n
                 | none => p.notes }
    else p)
  if affected = 0 then (store, false, some "Permission not found or already revoked")
  else (updated, true, none)

/-- The accumulator loop of `get_highest_permission_level`: keep the first
active row whose level-rank strictly exceeds the best seen so far. -/
def highestLoop : List Perm → Nat → Option String → Option String
  | [], _, best => best
  | p :: rest, hv, best =>
    if p.is_active = false then highestLoop rest hv best
    else
      let lv := levelValue p.permission_level
      if hv < lv then highestLoop rest lv (some p.permission_level)
      else highestLoop rest hv best

/-- `get_highest_permission_level(user_id)` over the fetched permission list:
`None` when the list is empty, otherwise the loop above starting from rank 0.
Only `is_active` is consulted; `expires_at` is never read. -/
def get_highest_permission_level (perms : List Perm) : Option String :=
  if perms.isEmpty then none else highestLoop perms 0 none

/-- `verify_password(password, password_hash)` with the outcome of
`bcrypt.checkpw(password, password_hash)` passed explicitly: falsy (empty)
inputs short-circuit to `False`, and the `try/except` converts any bcrypt
exception to `False`. -/
def verify_password (password password_hash : String)
    (checkpw : Except String Bool) : Bool :=
  if password = "" ∨ password_hash = "" then false
  else
    match checkpw with
    | .ok b => b
    | .error _ => false

/-! ### Token issuing and verification (jwt_utils.py, firestore_client.py) -/

/-- JWT payload as built by the two issue functions (string-valued claims plus
the numeric `iat`/`exp`). -/
structure Claims where
  user_id : String
  email : String
  type : String
  iat : Int
  exp : Int
  jti : String
  sid : Option String
deriving DecidableEq, Repr

/-- A signed token: the encoded payload together with the key it was signed
with (signature verification in `jwt.decode` is key equality). -/
structure Token where
  payload : Claims
  key : String
deriving DecidableEq, Repr

/-- One row of the sessions store (`create_session` in firestore_client.py). -/
structure Session where
  session_id : String
  user_id : String
  token_hash : String
  created_at : Int
  expires_at : Int
  is_active : Bool
  revoked_at : Option Int
deriving DecidableEq, Repr

/-- `payload.update(additional_claims)` restricted to the representable
string-valued claim keys; an entry whose key names none of them leaves the
fixed-field payload unchanged. -/
def applyClaim (c : Claims) (kv : String × String) : Claims :=
  if kv.1 = "user_id" then { c with user_id := kv.2 }
  else if kv.1 = "email" then { c with email := kv.2 }
  else if kv.1 = "type" then { c with type := kv.2 }
  else if kv.1 = "jti" then { c with jti := kv.2 }
  else if kv.1 = "sid" then { c with sid := some kv.2 }
  else c

/-- `if additional_claims: payload.update(additional_claims)`. -/
def updateClaims (c : Claims) : Option (List (String × String)) → Claims
  | none => c
  | some l => l.foldl applyClaim c

/-- `generate_access_token(user_id, email, additional_claims)`: payload with
`type='access'`, `exp = now + JWT_EXPIRATION_HOURS hours`, updated with the
additional claims, signed with the server secret.  `jti` is the
`uuid.uuid4()` value. -/
def generate_access_token (now ttlHours : Int) (secret user_id email jti : String)
    (additional_claims : Option (List (String × String))) : Token :=
  let payload : Claims :=
    { user_id := user_id
      email := email
      type := "access"
      iat := now
      exp := now + ttlHours * 3600
      jti := jti
      sid := none }
  { payload := updateClaims payload additional_claims, key := secret }

/-- `generate_refresh_token(user_id, email)`: payload with `type='refresh'`,
`exp = now + JWT_REFRESH_EXPIRATION_DAYS days`, a fresh `sid`, signed; as a
side effect `create_session` appends a Session row holding the hash of the
issued token.  Returns `(token, session_id, updated session store)`. -/
def generate_refresh_token (now ttlDays : Int)
    (secret user_id email jti session_id : String)
    (hashFn : Token → String) (sessions : List Session) :
    Token × String × List Session :=
  let payload : Claims :=
    { user_id := user_id
      email := email
      type := "refresh"
      iat := now
      exp := now + ttlDays * 86400
      jti := jti
      sid := some session_id }
  let token : Token := { payload := payload, key := secret }
  let row : Session :=
    { session_id := session_id
      user_id := user_id
      token_hash := hashFn token
      created_at := now
      expires_at := now + ttlDays * 86400
      is_active := true
      revoked_at := none }
  (token, session_id, sessions ++ [row])

/-- `jwt.decode(token, secret, algorithms)`: rejects a wrong signature, then a
payload whose `exp` lies strictly before `now`. -/
def jwtDecode (now : Int) (secret : String) (tok : Token) : Except String Claims :=
  if ¬tok.key = secret then .error "Invalid token signature"
  else if tok.payload.exp < now then .error "Token has expired"
  else .ok tok.payload

/-- `_check_session_active(session_id, token)`: point-read of the session row,
then the `is_active`, stored-hash, and expiry checks in source order. -/
def check_session_active (now : Int) (sessions : List Session)
    (session_id tokenHash : String) : Bool :=
  match sessions.find? (fun s => decide (s.session_id = session_id)) with
  | none => false
  | some s =>
    if s.is_active = false then false
    else if ¬s.token_hash = tokenHash then false
    else if s.expires_at < now then false
    else true

/-- `verify_token(token, token_type)`: missing token, decode (signature /
expiry), the `payload.get('type') != token_type` check, and for refresh tokens
the `sid` presence and session-liveness checks.  Returns the
`(is_valid, payload, error_message)` triple of the source. -/
def verify_token (now : Int) (secret : String) (sessions : List Session)
    (hashFn : Token → String) (token : Option Token) (token_type : String) :
    Bool × Option Claims × Option String :=
  match token with
  | none => (false, none, some "Token is required")
  | some tok =>
    match jwtDecode now secret tok with
    | .error e => (false, none, some e)
    | .ok payload =>
      if ¬payload.type = token_type then
        (false, none, some ("Invalid token type (expected " ++ token_type ++ ")"))
      else if token_type = "refresh" then
        match payload.sid with
        | none => (false, none, some "Invalid refresh token (missing session ID)")
        | some sid =>
          if check_session_active now sessions sid (hashFn tok) then
            (true, some payload, none)
          else
            (false, none, some "Session has been revoked")
      else (true, some payload, none)

/-- `revoke_session(session_id)` (firestore_client.py): when a document with
that id exists, set `is_active=False` and stamp `revoked_at`; otherwise do
nothing.  The function returns `None` in the source. -/
def revoke_session (now : Int) (sessions : List Session) (session_id : String) :
    List Session :=
  if sessions.any (fun s => decide (s.session_id = session_id)) then
    sessions.map (fun s =>
      if s.session_id = session_id then
        { s with is_active := false, revoked_at := some now }
      else s)
  else sessions

/-- `revoke_token(session_id, revoked_by)` (jwt_utils.py): calls
`revoke_session` and returns `True`; `False` is produced only by the
`except` branch when the store call raises, which the non-failing store
embedded here never does. -/
def revoke_token (now : Int) (sessions : List Session) (session_id : String) :
    List Session × Bool :=
  (revoke_session now sessions session_id, true)

/-! ### Derived predicates and core lemmas about `check_permission` -/

/-- A grant is effective for `check_permission` exactly when it is active and
its expiry does not make the loop skip it: `expires_at` NULL, or a timestamp
`t` with `¬ t < now` (the source keeps the boundary instant `t = now`). -/
def effective (now : Int) (p : Perm) : Bool :=
  p.is_active &&
    match p.expires_at with
    | .none => true
    | .ts t => decide (¬t < now)
    | .malformed => false

/-- A grant makes the `check_permission` loop return `True` at its own
iteration exactly when it is effective, at least the required rank, and
scope-matching. -/
def qualifies (now : Int) (reqVal : Nat) (company category : Option String)
    (p : Perm) : Bool :=
  effective now p && decide (reqVal ≤ levelValue p.permission_level) &&
    scopeMatches p company category

/-! ### Concrete records used to instantiate the theorems -/

/-- A super-admin grant: `admin` level, both scope fields NULL, no expiry. -/
def superAdminGrant : Perm :=
  { permission_id := "p-super"
    user_id := "admin-1"
    company := none
    category := none
    permission_level := "admin"
    granted_by := "system"
    granted_at := 0
    expires_at := .none
    is_active := true
    revoked_by := none
    revoked_at := none
    notes := none }

/-- A fully scoped `view` grant for user-1 on (Acme, SASE), no expiry. -/
def acmeSaseViewGrant : Perm :=
  { permission_id := "p-view"
    user_id := "user-1"
    company := some "Acme"
    category := some "SASE"
    permission_level := "view"
    granted_by := "admin-1"
    granted_at := 1
    expires_at := .none
    is_active := true
    revoked_by := none
    revoked_at := none
    notes := none }

/-- A super-admin grant expiring exactly at time 5. -/
def boundaryAdminGrant : Perm := { superAdminGrant with expires_at := .ts 5 }

/-- An active super-admin grant that expired at time 0. -/
def expiredAdminGrant : Perm := { superAdminGrant with expires_at := .ts 0 }

/-- A session row that has already been revoked. -/
def inactiveSession : Session :=
  { session_id := "s-1"
    user_id := "u1"
    token_hash := "h"
    created_at := 0
    expires_at := 100
    is_active := false
    revoked_at := some 1 }


theorem qualifies_iff (now : Int) (reqVal : Nat) (company category : Option String)
    (p : Perm) :
    qualifies now reqVal company category p = true ↔
      effective now p = true ∧ reqVal ≤ levelValue p.permission_level ∧
        scopeMatches p company category = true := by
  simp [qualifies, Bool.and_eq_true, and_assoc]

/-- Soundness of the loop: it answers `.ok true` only when some listed grant
qualifies. -/
theorem checkLoop_ok_true (now : Int) (reqVal : Nat) (company category : Option String) :
    ∀ perms : List Perm, checkLoop now reqVal company category perms = .ok true →
      ∃ p ∈ perms, qualifies now reqVal company category p = true := by
  intro perms
  induction perms with
  | nil => intro h; simp [checkLoop] at h
  | cons p rest ih =>
    intro h
    by_cases hact : p.is_active = false
    · rw [checkLoop, if_pos hact] at h
      obtain ⟨q, hq, hqq⟩ := ih h
      exact ⟨q, List.mem_cons_of_mem _ hq, hqq⟩
    · have hact' : p.is_active = true := by
        cases hb : p.is_active
        · exact absurd hb hact
        · rfl
      rw [checkLoop, if_neg hact] at h
      rcases hexp : p.expires_at with _ | t | _ <;> simp only [hexp] at h
      · by_cases hlv : levelValue p.permission_level < reqVal
        · rw [if_pos hlv] at h
          obtain ⟨q, hq, hqq⟩ := ih h
          exact ⟨q, List.mem_cons_of_mem _ hq, hqq⟩
        · rw [if_neg hlv] at h
          by_cases hsc : scopeMatches p company category = true
          · refine ⟨p, List.mem_cons_self _ _, ?_⟩
            rw [qualifies_iff]
            exact ⟨by simp [effective, hact', hexp], Nat.le_of_not_lt hlv, hsc⟩
          · rw [if_neg hsc] at h
            obtain ⟨q, hq, hqq⟩ := ih h
            exact ⟨q, List.mem_cons_of_mem _ hq, hqq⟩
      · by_cases ht : t < now
        · rw [if_pos ht] at h
          obtain ⟨q, hq, hqq⟩ := ih h
          exact ⟨q, List.mem_cons_of_mem _ hq, hqq⟩
        · rw [if_neg ht] at h
          by_cases hlv : levelValue p.permission_level < reqVal
          · rw [if_pos hlv] at h
            obtain ⟨q, hq, hqq⟩ := ih h
            exact ⟨q, List.mem_cons_of_mem _ hq, hqq⟩
          · rw [if_neg hlv] at h
            by_cases hsc : scopeMatches p company category = true
            · refine ⟨p, List.mem_cons_self _ _, ?_⟩
              rw [qualifies_iff]
              exact ⟨by simp [effective, hact', hexp, ht], Nat.le_of_not_lt hlv, hsc⟩
            · rw [if_neg hsc] at h
              obtain ⟨q, hq, hqq⟩ := ih h
              exact ⟨q, List.mem_cons_of_mem _ hq, hqq⟩
      · exact absurd h (by simp)

/-- Completeness of the loop on well-formed rows: if every `expires_at`
parses and some listed grant qualifies, the loop answers `.ok true`. -/
theorem checkLoop_of_qualifies (now : Int) (reqVal : Nat) (company category : Option String) :
    ∀ perms : List Perm, (∀ p ∈ perms, p.expires_at ≠ .malformed) →
      (∃ p ∈ perms, qualifies now reqVal company category p = true) →
      checkLoop now reqVal company category perms = .ok true := by
  intro perms
  induction perms with
  | nil => intro _ hex; simp at hex
  | cons p rest ih =>
    intro hwf hex
    have hwfrest : ∀ q ∈ rest, q.expires_at ≠ .malformed := by
      intro q hq; exact hwf q (List.mem_cons_of_mem _ hq)
    have htail : (∃ q ∈ rest, qualifies now reqVal company category q = true) →
        checkLoop now reqVal company category (p :: rest) =
          checkLoop now reqVal company category rest ∨
        checkLoop now reqVal company category (p :: rest) = .ok true := by
      intro _
      by_cases hact : p.is_active = false
      · left; rw [checkLoop, if_pos hact]
      · rcases hexp : p.expires_at with _ | t | _
        · by_cases hlv : levelValue p.permission_level < reqVal
          · left; rw [checkLoop, if_neg hact]; simp only [hexp]; rw [if_pos hlv]
          · by_cases hsc : scopeMatches p company category = true
            · right; rw [checkLoop, if_neg hact]; simp only [hexp]
              rw [if_neg hlv, if_pos hsc]
            · left; rw [checkLoop, if_neg hact]; simp only [hexp]
              rw [if_neg hlv, if_neg hsc]
        · by_cases ht : t < now
          · left; rw [checkLoop, if_neg hact]; simp only [hexp]; rw [if_pos ht]
          · by_cases hlv : levelValue p.permission_level < reqVal
            · left; rw [checkLoop, if_neg hact]; simp only [hexp]
              rw [if_neg ht, if_pos hlv]
            · by_cases hsc : scopeMatches p company category = true
              · right; rw [checkLoop, if_neg hact]; simp only [hexp]
                rw [if_neg ht, if_neg hlv, if_pos hsc]
              · left; rw [checkLoop, if_neg hact]; simp only [hexp]
                rw [if_neg ht, if_neg hlv, if_neg hsc]
        · exact absurd hexp (hwf p (List.mem_cons_self _ _))
    rcases hex with ⟨q, hq, hqq⟩
    rcases List.mem_cons.mp hq with rfl | hqrest
    · -- the head itself qualifies and fires
      rw [qualifies_iff] at hqq
      obtain ⟨heff, hle, hsc⟩ := hqq
      have heff' : q.is_active = true ∧
          (match q.expires_at with
           | .none => true
           | .ts t => decide (¬t < now)
           | .malformed => false) = true := by
        simpa [effective, Bool.and_eq_true] using heff
      have hact : ¬q.is_active = false := by simp [heff'.1]
      have hlv : ¬levelValue q.permission_level < reqVal := Nat.not_lt.mpr hle
      rcases hexp : q.expires_at with _ | t | _
      · rw [checkLoop, if_neg hact]; simp only [hexp]; rw [if_neg hlv, if_pos hsc]
      · have ht : ¬t < now := by
          have h2 := heff'.2
          rw [hexp] at h2
          simpa using h2
        rw [checkLoop, if_neg hact]; simp only [hexp]
        rw [if_neg ht, if_neg hlv, if_pos hsc]
      · exact absurd hexp (hwf q (List.mem_cons_self _ _))
    · rcases htail ⟨q, hqrest, hqq⟩ with hstep | hdone
      · rw [hstep]; exact ih hwfrest ⟨q, hqrest, hqq⟩
      · exact hdone

/-- `check_permission` returns `true` only when a fetched grant qualifies. -/
theorem check_permission_true_implies (now : Int) (perms : List Perm)
    (lvl : String) (company category : Option String)
    (h : check_permission now (.ok perms) lvl company category = true) :
    ∃ p ∈ perms, qualifies now (levelValue lvl) company category p = true := by
  unfold check_permission at h
  by_cases he : perms.isEmpty
  · simp [he] at h
  · simp only [he, if_false, Bool.false_eq_true] at h
    rcases hl : checkLoop now (levelValue lvl) company category perms with e | b
    · rw [hl] at h; simp at h
    · rw [hl] at h
      cases b
      · simp at h
      · exact checkLoop_ok_true now (levelValue lvl) company category perms hl

/-- On a well-formed fetched list, `check_permission` returns `true` as soon
as some grant qualifies. -/
theorem check_permission_true_of_mem (now : Int) (perms : List Perm)
    (lvl : String) (company category : Option String)
    (hwf : ∀ p ∈ perms, p.expires_at ≠ .malformed)
    (hex : ∃ p ∈ perms, qualifies now (levelValue lvl) company category p = true) :
    check_permission now (.ok perms) lvl company category = true := by
  have hne : perms ≠ [] := by
    rcases hex with ⟨p, hp, _⟩
    exact List.ne_nil_of_mem hp
  have he : perms.isEmpty = false := by
    cases perms
    · exact absurd rfl hne
    · rfl
  unfold check_permission
  simp only [he, Bool.false_eq_true, if_false]
  rw [checkLoop_of_qualifies now (levelValue lvl) company category perms hwf hex]

/-! ### Claim theorems -/

/-- C3 (amended): `check_permission` can only return `true` on the strength of
a grant that is active and whose `expires_at` is NULL or is a timestamp `t`
with `now ≤ t`.  In particular a grant expired strictly in the past never
satisfies a check.  (The claim as frozen requires `t` strictly later than
`now`; the source keeps the boundary instant `t = now`, see the
counterexample.) -/
theorem check_permission_only_unexpired (now : Int) (perms : List Perm)
    (lvl : String) (company category : Option String)
    (h : check_permission now (.ok perms) lvl company category = true) :
    ∃ p ∈ perms, p.is_active = true ∧
      (p.expires_at = Expiry.none ∨ ∃ t, p.expires_at = Expiry.ts t ∧ now ≤ t) := by
  obtain ⟨p, hp, hq⟩ := check_permission_true_implies now perms lvl company category h
  rw [qualifies_iff] at hq
  obtain ⟨heff, -, -⟩ := hq
  have heff' : p.is_active = true ∧
      (match p.expires_at with
       | .none => true
       | .ts t => decide (¬t < now)
       | .malformed => false) = true := by
    simpa [effective, Bool.and_eq_true] using heff
  refine ⟨p, hp, heff'.1, ?_⟩
  rcases hexp : p.expires_at with _ | t | _
  · exact Or.inl rfl
  · refine Or.inr ⟨t, rfl, ?_⟩
    have h2 := heff'.2
    rw [hexp] at h2
    simpa [Int.not_lt] using h2
  · have h2 := heff'.2
    rw [hexp] at h2
    simp at h2

/-- C3 witness: a grant with NULL expiry satisfies a check, and the theorem
recovers its effectiveness. -/
theorem check_permission_only_unexpired_witness :
    ∃ p ∈ [superAdminGrant], p.is_active = true ∧
      (p.expires_at = Expiry.none ∨ ∃ t, p.expires_at = Expiry.ts t ∧ (5 : Int) ≤ t) :=
  check_permission_only_unexpired 5 [superAdminGrant] "view" none none (by decide)

/-- C3 counterexample: at `now = 5` an active grant with `expires_at = 5` —
not *later* than now, hence not effective in the claim's strict sense —
still satisfies the check: the source skips a grant only when
`expires_at < utcnow()`. -/
theorem check_permission_boundary_expiry :
    check_permission 5 (.ok [boundaryAdminGrant]) "view" none none = true ∧
    boundaryAdminGrant.is_active = true ∧
    boundaryAdminGrant.expires_at = Expiry.ts 5 ∧ ¬(5 : Int) < 5 := by
  decide

/-- C4: a user whose fetched (well-formed) grant list contains an effective
`(company=NULL, category=NULL, level=admin)` grant passes `check_permission`
for every required level in view/edit/admin and every requested scope,
NULL wildcards included. -/
theorem super_admin_dominates (now : Int) (perms : List Perm) (lvl : String)
    (company category : Option String)
    (hwf : ∀ p ∈ perms, p.expires_at ≠ Expiry.malformed)
    (hlvl : lvl = "view" ∨ lvl = "edit" ∨ lvl = "admin")
    (hsa : ∃ g ∈ perms, g.company = none ∧ g.category = none ∧
      g.permission_level = "admin" ∧ effective now g = true) :
    check_permission now (.ok perms) lvl company category = true := by
  obtain ⟨g, hg, hc, hk, hlv, heff⟩ := hsa
  apply check_permission_true_of_mem now perms lvl company category hwf
  refine ⟨g, hg, (qualifies_iff _ _ _ _ _).mpr ⟨heff, ?_, ?_⟩⟩
  · rcases hlvl with h | h | h <;> rw [h, hlv] <;> decide
  · simp [scopeMatches, hc, hk]

/-- C4 witness: a concrete super admin passes an `edit` check on a foreign
scope. -/
theorem super_admin_dominates_witness :
    check_permission 7 (.ok [acmeSaseViewGrant, superAdminGrant]) "edit"
      (some "Globex") none = true :=
  super_admin_dominates 7 [acmeSaseViewGrant, superAdminGrant] "edit"
    (some "Globex") none (by decide) (Or.inr (Or.inl rfl))
    ⟨superAdminGrant, by decide, rfl, rfl, rfl, by decide⟩

/-- C5: when every effective grant of the fetched list is scoped exactly to
(Acme, SASE), checks for (Acme, Cloud) and (Other, SASE) fail at every
required level — a fully specific grant never leaks to a different non-null
company or category. -/
theorem scope_non_leakage (now : Int) (perms : List Perm) (lvl : String)
    (honly : ∀ p ∈ perms, effective now p = true →
      p.company = some "Acme" ∧ p.category = some "SASE") :
    check_permission now (.ok perms) lvl (some "Acme") (some "Cloud") = false ∧
    check_permission now (.ok perms) lvl (some "Other") (some "SASE") = false := by
  constructor
  · rw [Bool.eq_false_iff]
    intro h
    obtain ⟨p, hp, hq⟩ := check_permission_true_implies _ _ _ _ _ h
    rw [qualifies_iff] at hq
    obtain ⟨heff, -, hsc⟩ := hq
    obtain ⟨hc, hk⟩ := honly p hp heff
    simp [scopeMatches, hc, hk] at hsc
  · rw [Bool.eq_false_iff]
    intro h
    obtain ⟨p, hp, hq⟩ := check_permission_true_implies _ _ _ _ _ h
    rw [qualifies_iff] at hq
    obtain ⟨heff, -, hsc⟩ := hq
    obtain ⟨hc, hk⟩ := honly p hp heff
    simp [scopeMatches, hc, hk] at hsc

/-- C5 witness: the concrete (Acme, SASE) view grant fails both foreign-scope
checks. -/
theorem scope_non_leakage_witness :
    check_permission 5 (.ok [acmeSaseViewGrant]) "view" (some "Acme") (some "Cloud") = false ∧
    check_permission 5 (.ok [acmeSaseViewGrant]) "view" (some "Other") (some "SASE") = false :=
  scope_non_leakage 5 [acmeSaseViewGrant] "view" (by decide)

/-- C10: an unrecognized `required_level` gets rank 0 from
`PERMISSION_LEVELS.get(required_level, 0)`, so the level filter never skips a
grant, and on a well-formed fetched list the check succeeds exactly when some
effective grant scope-matches the request. -/
theorem unknown_required_level_rank_zero (lvl : String)
    (h1 : lvl ≠ "view") (h2 : lvl ≠ "edit") (h3 : lvl ≠ "admin")
    (now : Int) (perms : List Perm) (company category : Option String)
    (hwf : ∀ p ∈ perms, p.expires_at ≠ Expiry.malformed) :
    levelValue lvl = 0 ∧
    (check_permission now (.ok perms) lvl company category = true ↔
      ∃ p ∈ perms, effective now p = true ∧ scopeMatches p company category = true) := by
  have hv : levelValue lvl = 0 := by simp [levelValue, h1, h2, h3]
  refine ⟨hv, ?_, ?_⟩
  · intro h
    obtain ⟨p, hp, hq⟩ := check_permission_true_implies _ _ _ _ _ h
    rw [qualifies_iff] at hq
    exact ⟨p, hp, hq.1, hq.2.2⟩
  · rintro ⟨p, hp, heff, hsc⟩
    apply check_permission_true_of_mem _ _ _ _ _ hwf
    exact ⟨p, hp, (qualifies_iff _ _ _ _ _).mpr
      ⟨heff, by rw [hv]; exact Nat.zero_le _, hsc⟩⟩

/-- C10 witness: the unrecognized level "owner" is rank 0 and a matching
`view` grant satisfies the check. -/
theorem unknown_required_level_rank_zero_witness :
    levelValue "owner" = 0 ∧
    (check_permission 5 (.ok [acmeSaseViewGrant]) "owner" (some "Acme") (some "SASE") = true ↔
      ∃ p ∈ [acmeSaseViewGrant], effective 5 p = true ∧
        scopeMatches p (some "Acme") (some "SASE") = true) :=
  unknown_required_level_rank_zero "owner" (by decide) (by decide) (by decide)
    5 [acmeSaseViewGrant] (some "Acme") (some "SASE") (by decide)

/-- Invariant of the `get_highest_permission_level` accumulator loop: either
no listed active grant beats the running maximum and the accumulator is
returned, or the result is the level of some listed active grant that strictly
beats the running maximum and dominates every listed active grant. -/
theorem highestLoop_cases :
    ∀ (perms : List Perm) (hv : Nat) (best : Option String),
      (highestLoop perms hv best = best ∧
        ∀ p ∈ perms, p.is_active = true → levelValue p.permission_level ≤ hv) ∨
      (∃ p ∈ perms, p.is_active = true ∧
        highestLoop perms hv best = some p.permission_level ∧
        hv < levelValue p.permission_level ∧
        ∀ q ∈ perms, q.is_active = true →
          levelValue q.permission_level ≤ levelValue p.permission_level) := by
  intro perms
  induction perms with
  | nil => intro hv best; left; exact ⟨rfl, by simp⟩
  | cons p rest ih =>
    intro hv best
    by_cases hact : p.is_active = false
    · have hstep : highestLoop (p :: rest) hv best = highestLoop rest hv best := by
        simp only [highestLoop]; rw [if_pos hact]
      have hp0 : ∀ P : Prop, p.is_active = true → P := by
        intro P hpa; rw [hpa] at hact; exact absurd hact (by decide)
      rcases ih hv best with ⟨heq, hb⟩ | ⟨q, hq, hqa, heq, hlt, hb⟩
      · left
        refine ⟨by rw [hstep, heq], ?_⟩
        intro r hr hra
        rcases List.mem_cons.mp hr with rfl | hr'
        · exact hp0 _ hra
        · exact hb r hr' hra
      · right
        refine ⟨q, List.mem_cons_of_mem _ hq, hqa, by rw [hstep, heq], hlt, ?_⟩
        intro r hr hra
        rcases List.mem_cons.mp hr with rfl | hr'
        · exact hp0 _ hra
        · exact hb r hr' hra
    · by_cases hlt : hv < levelValue p.permission_level
      · have hstep : highestLoop (p :: rest) hv best =
            highestLoop rest (levelValue p.permission_level) (some p.permission_level) := by
          simp only [highestLoop]; rw [if_neg hact, if_pos hlt]
        have hact' : p.is_active = true := by
          cases hb : p.is_active
          · exact absurd hb hact
          · rfl
        rcases ih (levelValue p.permission_level) (some p.permission_level) with
          ⟨heq, hb⟩ | ⟨q, hq, hqa, heq, hlt2, hb⟩
        · right
          refine ⟨p, List.mem_cons_self _ _, hact', by rw [hstep, heq], hlt, ?_⟩
          intro r hr hra
          rcases List.mem_cons.mp hr with rfl | hr'
          · exact le_refl _
          · exact hb r hr' hra
        · right
          refine ⟨q, List.mem_cons_of_mem _ hq, hqa, by rw [hstep, heq],
            lt_trans hlt hlt2, ?_⟩
          intro r hr hra
          rcases List.mem_cons.mp hr with rfl | hr'
          · exact le_of_lt hlt2
          · exact hb r hr' hra
      · have hstep : highestLoop (p :: rest) hv best = highestLoop rest hv best := by
          simp only [highestLoop]; rw [if_neg hact, if_neg hlt]
        rcases ih hv best with ⟨heq, hb⟩ | ⟨q, hq, hqa, heq, hlt2, hb⟩
        · left
          refine ⟨by rw [hstep, heq], ?_⟩
          intro r hr hra
          rcases List.mem_cons.mp hr with rfl | hr'
          · exact Nat.le_of_not_lt hlt
          · exact hb r hr' hra
        · right
          refine ⟨q, List.mem_cons_of_mem _ hq, hqa, by rw [hstep, heq], hlt2, ?_⟩
          intro r hr hra
          rcases List.mem_cons.mp hr with rfl | hr'
          · exact le_trans (Nat.le_of_not_lt hlt) (le_of_lt hlt2)
          · exact hb r hr' hra

/-- C6 (amended): `get_highest_permission_level` consults only `is_active` —
expiry is never read — and returns the level of an active grant of maximal
rank (`view`=1 < `edit`=2 < `admin`=3, unrecognized = 0), or `none` exactly
when no active grant has positive rank. -/
theorem get_highest_level_active_max (perms : List Perm) :
    match get_highest_permission_level perms with
    | none => ∀ p ∈ perms, p.is_active = true → levelValue p.permission_level = 0
    | some l => (∃ p ∈ perms, p.is_active = true ∧ p.permission_level = l) ∧
        0 < levelValue l ∧
        ∀ p ∈ perms, p.is_active = true → levelValue p.permission_level ≤ levelValue l := by
  cases hperms : perms with
  | nil => simp [get_highest_permission_level]
  | cons a as =>
    have he : get_highest_permission_level (a :: as) = highestLoop (a :: as) 0 none := by
      simp [get_highest_permission_level]
    rcases highestLoop_cases (a :: as) 0 none with ⟨heq, hb⟩ | ⟨q, hq, hqa, heq, hlt, hb⟩
    · rw [he, heq]
      intro p hp hpa
      exact Nat.le_zero.mp (hb p hp hpa)
    · rw [he, heq]
      exact ⟨⟨q, hq, hqa, rfl⟩, hlt, hb⟩

/-- C6 witness: on a two-grant list the returned level is `admin`, which is
the level of an active grant, has positive rank, and dominates every active
grant. -/
theorem get_highest_level_active_max_witness :
    (∃ p ∈ [expiredAdminGrant, acmeSaseViewGrant],
      p.is_active = true ∧ p.permission_level = "admin") ∧
    0 < levelValue "admin" ∧
    ∀ p ∈ [expiredAdminGrant, acmeSaseViewGrant], p.is_active = true →
      levelValue p.permission_level ≤ levelValue "admin" := by
  have h := get_highest_level_active_max [expiredAdminGrant, acmeSaseViewGrant]
  have e : get_highest_permission_level [expiredAdminGrant, acmeSaseViewGrant] =
      some "admin" := by decide
  rw [e] at h
  exact h

/-- C6 counterexample: an active super-admin grant that expired at time 0 is
not effective at time 1, yet `get_highest_permission_level` still returns
`admin` — the source never reads `expires_at`, so the claim's "only effective
grants" restriction fails and the result is not `null`. -/
theorem get_highest_level_counts_expired :
    get_highest_permission_level [expiredAdminGrant] = some "admin" ∧
    expiredAdminGrant.is_active = true ∧
    expiredAdminGrant.expires_at = Expiry.ts 0 ∧
    effective 1 expiredAdminGrant = false := by
  decide

/-- C1 (amended): under a valid level and an authorized granter, the call
returns the duplicate error exactly when some row of the table — active or
not, expired or not — matches the `get_user_permissions` filter for
`(user_id, company, category, permission_level)`: same user, SAME level, and
a company (resp. category) that is NULL or equal to the requested one (no
constraint when the requested value is NULL).  Otherwise a new active grant
is appended and its id returned. -/
theorem grant_permission_duplicate_rule (now : Int) (store : List Perm)
    (user_id permission_level granted_by : String) (company category : Option String)
    (expires_at : Option Int) (notes : Option String) (newId : String)
    (hlvl : permission_level = "view" ∨ permission_level = "edit" ∨
      permission_level = "admin")
    (hgr : check_permission now
      (.ok (get_user_permissions store granted_by none none none))
      "admin" company category = true) :
    ((∃ p ∈ store, permFilter user_id company category (some permission_level) p = true) →
      grant_permission now store user_id permission_level granted_by company category
        expires_at notes newId =
        (store, false, none, some "Permission already exists for this scope")) ∧
    (¬(∃ p ∈ store, permFilter user_id company category (some permission_level) p = true) →
      ∃ g : Perm, grant_permission now store user_id permission_level granted_by company
        category expires_at notes newId = (store ++ [g], true, some newId, none) ∧
        g.permission_id = newId ∧ g.user_id = user_id ∧ g.company = company ∧
        g.category = category ∧ g.permission_level = permission_level ∧
        g.is_active = true) := by
  have hnotfalse : ¬(check_permission now
      (.ok (get_user_permissions store granted_by none none none))
      "admin" company category = false) := by simp [hgr]
  constructor
  · intro hex
    have hne : (get_user_permissions store user_id company category
        (some permission_level)).isEmpty = false := by
      obtain ⟨p, hp, hpf⟩ := hex
      have hmem : p ∈ get_user_permissions store user_id company category
          (some permission_level) := List.mem_filter.mpr ⟨hp, hpf⟩
      cases hf : get_user_permissions store user_id company category
          (some permission_level) with
      | nil => rw [hf] at hmem; cases hmem
      | cons b bs => rfl
    simp only [grant_permission]
    rw [if_neg (not_not_intro hlvl), if_neg hnotfalse, if_pos hne]
  · intro hnex
    have hnil : get_user_permissions store user_id company category
        (some permission_level) = [] := by
      cases hf : get_user_permissions store user_id company category
          (some permission_level) with
      | nil => rfl
      | cons b bs =>
        exfalso
        apply hnex
        have hb : b ∈ get_user_permissions store user_id company category
            (some permission_level) := by rw [hf]; exact List.mem_cons_self _ _
        have := List.mem_filter.mp hb
        exact ⟨b, this.1, this.2⟩
    have hemp : ¬((get_user_permissions store user_id company category
        (some permission_level)).isEmpty = false) := by rw [hnil]; simp
    simp only [grant_permission]
    rw [if_neg (not_not_intro hlvl), if_neg hnotfalse, if_neg hemp]
    exact ⟨_, rfl, rfl, rfl, rfl, rfl, rfl, rfl⟩

/-- C1 witness: with only the super-admin row in the table, granting edit on
(Acme, SASE) to user-1 finds no filter match and persists a new grant. -/
theorem grant_permission_duplicate_rule_witness :
    ∃ g : Perm, grant_permission 10 [superAdminGrant] "user-1" "edit" "admin-1"
      (some "Acme") (some "SASE") none none "perm-new" =
      ([superAdminGrant] ++ [g], true, some "perm-new", none) ∧
      g.permission_id = "perm-new" ∧ g.user_id = "user-1" ∧ g.company = some "Acme" ∧
      g.category = some "SASE" ∧ g.permission_level = "edit" ∧ g.is_active = true :=
  (grant_permission_duplicate_rule 10 [superAdminGrant] "user-1" "edit" "admin-1"
    (some "Acme") (some "SASE") none none "perm-new" (Or.inr (Or.inl rfl))
    (by decide)).2 (by decide)

/-- C1 counterexample: user-1 already holds an EFFECTIVE grant for exactly
(user-1, Acme, SASE) — at level view — yet granting edit for the same triple
succeeds instead of returning the duplicate error: the source's duplicate
query filters on the SAME `permission_level`, refuting the claim's
"at any permission level" duplicate condition. -/
theorem grant_permission_ignores_other_levels :
    effective 10 acmeSaseViewGrant = true ∧
    acmeSaseViewGrant.user_id = "user-1" ∧
    acmeSaseViewGrant.company = some "Acme" ∧
    acmeSaseViewGrant.category = some "SASE" ∧
    (grant_permission 10 [superAdminGrant, acmeSaseViewGrant] "user-1" "edit" "admin-1"
      (some "Acme") (some "SASE") none none "perm-new").2.1 = true ∧
    (grant_permission 10 [superAdminGrant, acmeSaseViewGrant] "user-1" "edit" "admin-1"
      (some "Acme") (some "SASE") none none "perm-new").2.2.2 = none := by
  decide

/-- C2 (code bug): the revocation UPDATE's WHERE clause matches on
`permission_id` alone, so revoking the same id a second time still affects
one row and reports success — it even re-stamps `revoked_by`/`revoked_at` —
instead of returning the "Permission not found or already revoked" error the
claim (and the source's own error message) promise. -/
theorem revoke_permission_double_revoke :
    (revoke_permission 10 [acmeSaseViewGrant] "p-view" "admin-1" none).2.1 = true ∧
    (revoke_permission 10 [acmeSaseViewGrant] "p-view" "admin-1" none).1 =
      [({ acmeSaseViewGrant with
          is_active := false
          revoked_by := some "admin-1"
          revoked_at := some 10 } : Perm)] ∧
    (revoke_permission 20
      (revoke_permission 10 [acmeSaseViewGrant] "p-view" "admin-1" none).1
      "p-view" "admin-2" none).2.1 = true ∧
    (revoke_permission 20
      (revoke_permission 10 [acmeSaseViewGrant] "p-view" "admin-1" none).1
      "p-view" "admin-2" none).2.2 = none := by
  decide

/-- C7: permission checks and password verification fail closed.  A store
failure reaches `check_permission` as an empty fetched list and yields
`false`; a bcrypt failure makes `verify_password` return `false`; a malformed
grant raising inside the check loop is caught at the boundary and yields
`false`.  All three functions are total Bool-valued maps in this embedding —
no exception escapes them. -/
theorem fail_closed (now : Int) (lvl : String) (company category : Option String)
    (e : String) (pw ph : String) (pid uid gby pl : String)
    (co ka : Option String) (ga : Int) (rb : Option String) (ra : Option Int)
    (nt : Option String) (rest : List Perm) :
    check_permission now (.error e) lvl company category = false ∧
    verify_password pw ph (.error e) = false ∧
    check_permission now
      (.ok ({ permission_id := pid, user_id := uid, company := co, category := ka,
              permission_level := pl, granted_by := gby, granted_at := ga,
              expires_at := .malformed, is_active := true, revoked_by := rb,
              revoked_at := ra, notes := nt } :: rest)) lvl company category = false := by
  refine ⟨by simp [check_permission], ?_, ?_⟩
  · unfold verify_password
    split
    · rfl
    · rfl
  · simp [check_permission, checkLoop]

/-- C8 (amended): a token issued by `generate_access_token` whose
`additional_claims` do not touch the `type` claim (here: absent), verified
with the issuing secret while unexpired, fails `verify_token(·, "refresh")`
with exactly the type-mismatch error; symmetrically a `generate_refresh_token`
token fails `verify_token(·, "access")` with the type-mismatch error.  In
particular neither verifies as the other type. -/
theorem token_type_isolation (tIss tVer ttlH ttlD : Int)
    (secret uid email jti sid : String) (hashFn : Token → String)
    (sessions sessions0 : List Session)
    (hacc : ¬tIss + ttlH * 3600 < tVer)
    (href : ¬tIss + ttlD * 86400 < tVer) :
    verify_token tVer secret sessions hashFn
      (some (generate_access_token tIss ttlH secret uid email jti none)) "refresh" =
      (false, none, some "Invalid token type (expected refresh)") ∧
    verify_token tVer secret sessions hashFn
      (some (generate_refresh_token tIss ttlD secret uid email jti sid hashFn
        sessions0).1) "access" =
      (false, none, some "Invalid token type (expected access)") ∧
    (∀ tAny : Int,
      (verify_token tAny secret sessions hashFn
        (some (generate_access_token tIss ttlH secret uid email jti none))
        "refresh").1 = false ∧
      (verify_token tAny secret sessions hashFn
        (some (generate_refresh_token tIss ttlD secret uid email jti sid hashFn
          sessions0).1) "access").1 = false) := by
  refine ⟨?_, ?_, ?_⟩
  · simp [verify_token, generate_access_token, updateClaims, jwtDecode, hacc]
  · simp [verify_token, generate_refresh_token, jwtDecode, href]
  · intro tAny
    constructor
    · by_cases h : tIss + ttlH * 3600 < tAny
      · simp [verify_token, generate_access_token, updateClaims, jwtDecode, h]
      · simp [verify_token, generate_access_token, updateClaims, jwtDecode, h]
    · by_cases h : tIss + ttlD * 86400 < tAny
      · simp [verify_token, generate_refresh_token, jwtDecode, h]
      · simp [verify_token, generate_refresh_token, jwtDecode, h]

/-- C8 witness: concrete issue times and TTLs satisfying the non-expiry
hypotheses. -/
theorem token_type_isolation_witness :
    verify_token 10 "secret" [] (fun _ => "h")
      (some (generate_access_token 0 24 "secret" "u1" "u1@example.com" "jti-1" none))
      "refresh" =
      (false, none, some "Invalid token type (expected refresh)") ∧
    verify_token 10 "secret" [] (fun _ => "h")
      (some (generate_refresh_token 0 30 "secret" "u1" "u1@example.com" "jti-2" "sid-1"
        (fun _ => "h") []).1) "access" =
      (false, none, some "Invalid token type (expected access)") :=
  ⟨(token_type_isolation 0 10 24 30 "secret" "u1" "u1@example.com" "jti-1" "sid-1"
    (fun _ => "h") [] [] (by decide) (by decide)).1,
   (token_type_isolation 0 10 24 30 "secret" "u1" "u1@example.com" "jti-1" "sid-1"
    (fun _ => "h") [] [] (by decide) (by decide)).2.1⟩

/-- C8 counterexample: `payload.update(additional_claims)` runs after
`type='access'` is set, so `additional_claims={'type': 'refresh'}` overrides
it.  The resulting token — produced by `generate_access_token` — fails
`verify_token(·, "refresh")` with the missing-session-ID error, not the
type-mismatch error the claim requires for every `issue_access` token. -/
theorem access_token_type_override :
    verify_token 0 "secret" [] (fun _ => "h")
      (some (generate_access_token 0 24 "secret" "u1" "u1@example.com" "jti-1"
        (some [("type", "refresh")]))) "refresh" =
      (false, none, some "Invalid refresh token (missing session ID)") := by
  decide

/-- C9 (code bug): `revoke_token` returns `True` whenever the Firestore call
completes: revoking a nonexistent session returns `True` with no row changed,
and revoking an already-revoked session returns `True` (re-stamping
`revoked_at`), contradicting the claim — and the repository's own
`test_revoke_token_not_found`, which expects `False` for a nonexistent
session. -/
theorem revoke_token_true_without_change :
    revoke_token 0 [] "s-1" = ([], true) ∧
    (revoke_token 5 [inactiveSession] "s-1").2 = true ∧
    (revoke_token 5 [inactiveSession] "s-1").1 =
      [{ inactiveSession with revoked_at := some 5 }] := by
  decide

end ClientPages
